import Mathlib

/-!
Verification of the shared request layer of the API dashboard: a cached
HTTP fetcher (`apiRequest`), its cache-key derivation (`getCacheKey`),
freshness check (`isCacheValid`), cache clearing operations, error
normalization (`handleApiError`) and the environment-variable accessor
(`getEnvVariable`).  The source file contains two near-duplicate copies of
the fetcher; both are embedded (`apiRequest` and `apiRequestDup`).

Modelling conventions:
* Timestamps and durations are integers (milliseconds); `Date.now()` is an
  explicit parameter (`now` at the freshness check, `storeTime` at the
  store after the network round trip — the two readings in the source).
* The module-level mutable `cache` object is explicit state
  (`Cache α := String → Option (CacheItem α)`), passed in and returned.
* The HTTP transport is an oracle parameter (`Transport α`): either a
  successful response or an `AxiosError` with the axios shape
  (`response?`, `request?`, `message`).
* Query parameters are an optional ordered list of string pairs; the key
  derivation serializes them exactly as `JSON.stringify` does (object
  braces, quoted escaped keys and values, comma separated, insertion
  order).
* `console.log` / `console.error` calls are modelled as a trace of
  `LogEntry` values so that the two duplicate copies can be compared
  modulo logging.
-/

namespace ApiDashboard

/-! ## JSON serialization of the parameter record (JSON.stringify) -/

/-- Lower-case hexadecimal digit, as used by the `\u00XX` escapes of
`JSON.stringify`. -/
def hexDigitChar (n : Nat) : Char :=
  if n < 10 then Char.ofNat (48 + n) else Char.ofNat (87 + n)

/-- The escape sequence `JSON.stringify` emits for one character of a
string: `\"`, `\\`, the named control escapes, `\u00XX` for the other
control characters, and the character itself otherwise. -/
def escapeChar (c : Char) : List Char :=
  if c = '"' then ['\\', '"']
  else if c = '\\' then ['\\', '\\']
  else if c = Char.ofNat 8 then ['\\', 'b']
  else if c = Char.ofNat 9 then ['\\', 't']
  else if c = Char.ofNat 10 then ['\\', 'n']
  else if c = Char.ofNat 12 then ['\\', 'f']
  else if c = Char.ofNat 13 then ['\\', 'r']
  else if c.toNat < 32 then
    ['\\', 'u', '0', '0', hexDigitChar (c.toNat / 16), hexDigitChar (c.toNat % 16)]
  else [c]

/-- Escaped body of a JSON string literal. -/
def escapeBody : List Char → List Char
  | [] => []
  | c :: cs => escapeChar c ++ escapeBody cs

/-- A JSON string literal: quote, escaped body, quote. -/
def quoteChars (s : List Char) : List Char :=
  '"' :: (escapeBody s ++ ['"'])

/-- One `"key":"value"` member of the serialized object. -/
def entryChars (k v : List Char) : List Char :=
  quoteChars k ++ ':' :: quoteChars v

/-- Comma-separated members, in insertion order. -/
def entriesChars : List (List Char × List Char) → List Char
  | [] => []
  | [kv] => entryChars kv.1 kv.2
  | kv :: rest => entryChars kv.1 kv.2 ++ ',' :: entriesChars rest

/-- The serialized object: `{` members `}`. -/
def stringifyChars (l : List (List Char × List Char)) : List Char :=
  '{' :: (entriesChars l ++ ['}'])

/-- Value of a hexadecimal digit character (inverse of `hexDigitChar`);
used only to state and prove that the serialization is invertible. -/
def hexVal (c : Char) : Nat :=
  if 48 ≤ c.toNat ∧ c.toNat ≤ 57 then c.toNat - 48
  else if 97 ≤ c.toNat ∧ c.toNat ≤ 102 then c.toNat - 87
  else 0

/-- Decoder for the escape code produced by `escapeChar`: reads back the
original character and the remaining input.  Used only to prove that the
serialization is prefix-unambiguous, hence injective. -/
def decodeEsc (l : List Char) : Option (Char × List Char) :=
  match l with
  | [] => none
  | '\\' :: rest =>
    match rest with
    | [] => none
    | d :: rest2 =>
      if d = '"' then some ('"', rest2)
      else if d = '\\' then some ('\\', rest2)
      else if d = 'b' then some (Char.ofNat 8, rest2)
      else if d = 't' then some (Char.ofNat 9, rest2)
      else if d = 'n' then some (Char.ofNat 10, rest2)
      else if d = 'f' then some (Char.ofNat 12, rest2)
      else if d = 'r' then some (Char.ofNat 13, rest2)
      else if d = 'u' then
        match rest2 with
        | _ :: _ :: h3 :: h4 :: rest3 =>
          some (Char.ofNat (16 * hexVal h3 + hexVal h4), rest3)
        | _ => none
      else none
  | c :: rest => some (c, rest)

/-- Query parameters: an ordered association list of string keys to string
values (the insertion-ordered `Record<string, any>` of the source, with
values already rendered as strings). -/
def Params : Type := List (String × String)

instance : DecidableEq Params := by
  unfold Params
  infer_instance

/-- `JSON.stringify` on the parameter record. -/
def jsonStringify (params : Params) : String :=
  String.mk (stringifyChars (params.map fun kv => (kv.1.toList, kv.2.toList)))

/-! ## Cache data model -/

/-- One cache entry: the response payload and the time it was stored
(`{ data, timestamp }` in the source). -/
structure CacheItem (α : Type) where
  data : α
  timestamp : Int
  deriving DecidableEq

/-- The module-level cache: a mapping from cache key to entry. -/
def Cache (α : Type) : Type := String → Option (CacheItem α)

/-- `getCacheKey`: the url followed by `JSON.stringify(params)` when params
are present, by the empty string otherwise. -/
def getCacheKey (url : String) (params : Option Params) : String :=
  url ++ (match params with
          | some p => jsonStringify p
          | none => "")

/-- `isCacheValid`: false when no entry exists for the key, otherwise the
strict age check `now - item.timestamp < cacheDuration`. -/
def isCacheValid (cache : Cache α) (cacheKey : String) (cacheDuration : Int)
    (now : Int) : Bool :=
  match cache cacheKey with
  | none => false
  | some item => decide (now - item.timestamp < cacheDuration)

/-- Store an entry under a key, leaving every other key unchanged
(`cache[cacheKey] = item`). -/
def updateCache (cache : Cache α) (key : String) (item : CacheItem α) : Cache α :=
  fun k => if k = key then some item else cache k

/-! ## Transport and error model -/

/-- The `response` carried by an axios error when the server answered with
an error status. -/
structure ErrorResponse where
  status : Int
  statusText : String
  data : String
  deriving DecidableEq

/-- The shape of an `AxiosError`: an optional server `response`, an
optional `request` (present when the request was sent), the setup
`message`, and the optional `config.url`. -/
structure AxiosError where
  response : Option ErrorResponse
  request : Option String
  message : String
  configUrl : Option String
  deriving DecidableEq

/-- Outcome of the single network round trip performed by the fetcher. -/
inductive Transport (α : Type) where
  | success (status : Int) (data : α)
  | failure (err : AxiosError)

/-! ## Log trace -/

/-- One `console.log` / `console.error` call, with the data it reports. -/
inductive LogEntry where
  | requestTo (url : String)
  | requestParams (params : Option Params)
  | usingCached (url : String)
  | freshRequest (url : String)
  | responseStatus (status : Int)
  | requestFailed (url : String)
  | errorResponse (url : Option String) (configUrl : Option String)
      (status : Int) (statusText : String) (data : String)
  | errorResponseBrief (status : Int) (statusText : String) (data : String)
  | openWeatherMapError (data : String)
  | invalidApiKey
  | keyActivationNote
  | cityNotFound
  | openWeatherRateLimit
  | rateLimitExceeded
  | noResponse (url : Option String) (configUrl : Option String) (request : String)
  | noResponseBrief (request : String)
  | noResponseHint
  | setupError (message : String)
  | envAccess (key : String)
  | envMissing (key : String)
  | envAvailable (keys : List String)
  | envFound (key : String) (length : Nat)

/-! ## Error normalization -/

/-- Whether `sub` occurs in `l` (the `String.includes` of the source). -/
def startsWithChars : List Char → List Char → Bool
  | _, [] => true
  | [], _ :: _ => false
  | c :: cs, d :: ds => c = d && startsWithChars cs ds

/-- Substring occurrence check over character lists. -/
def containsSubChars : List Char → List Char → Bool
  | [], sub => sub.isEmpty
  | c :: cs, sub => startsWithChars (c :: cs) sub || containsSubChars cs sub

/-- `s.includes(sub)`. -/
def stringIncludes (s sub : String) : Bool :=
  containsSubChars s.toList sub.toList

/-- `handleApiError` (first copy, with the `url` argument): branch on
`error.response`, then `error.request`, else the setup message; extra
OpenWeatherMap diagnostics when the url mentions `openweathermap.org`, and
the rate-limit note on status 429.  Pure diagnostics: it only produces a
log trace. -/
def handleApiError (error : AxiosError) (url : Option String) : List LogEntry :=
  match error.response with
  | some r =>
    [LogEntry.errorResponse url error.configUrl r.status r.statusText r.data] ++
    (if (match url with
         | some u => stringIncludes u "openweathermap.org"
         | none => false) then
      [LogEntry.openWeatherMapError r.data] ++
      (if r.status = 401 then [LogEntry.invalidApiKey, LogEntry.keyActivationNote]
       else if r.status = 404 then [LogEntry.cityNotFound]
       else if r.status = 429 then [LogEntry.openWeatherRateLimit]
       else [])
     else []) ++
    (if r.status = 429 then [LogEntry.rateLimitExceeded] else [])
  | none =>
    match error.request with
    | some req => [LogEntry.noResponse url error.configUrl req, LogEntry.noResponseHint]
    | none => [LogEntry.setupError error.message]

/-- `handleApiError` (second, duplicate copy without the `url`
argument). -/
def handleApiErrorDup (error : AxiosError) : List LogEntry :=
  match error.response with
  | some r =>
    [LogEntry.errorResponseBrief r.status r.statusText r.data] ++
    (if r.status = 429 then [LogEntry.rateLimitExceeded] else [])
  | none =>
    match error.request with
    | some req => [LogEntry.noResponseBrief req]
    | none => [LogEntry.setupError error.message]

/-- The three-way taxonomy the error handler's branches induce: server
responded with an error status (recording status, status text and body,
with the 429 rate-limit annotation), request sent but no response
received, or request-setup failure. -/
inductive ErrorKind where
  | responseError (status : Int) (statusText : String) (data : String)
      (rateLimited : Bool)
  | noResponseReceived
  | setupFailure (message : String)
  deriving DecidableEq

/-- The classification performed by `handleApiError`'s branch structure. -/
def classifyError (error : AxiosError) : ErrorKind :=
  match error.response with
  | some r => ErrorKind.responseError r.status r.statusText r.data (decide (r.status = 429))
  | none =>
    match error.request with
    | some _ => ErrorKind.noResponseReceived
    | none => ErrorKind.setupFailure error.message

/-! ## The cached fetcher -/

/-- What a call to the fetcher produces: the value returned to the caller
or the propagated error, the cache state afterwards, whether the network
path was taken, and the log trace. -/
structure RequestOutcome (α : Type) where
  result : Except AxiosError α
  cache : Cache α
  usedNetwork : Bool
  log : List LogEntry

/-- The `try { ... } catch` block of `apiRequest` (first copy): on success
store `{ data, timestamp: storeTime }` under the key and return the body;
on failure run `handleApiError(error, url)` and rethrow the same error,
leaving the cache untouched. -/
def fetchAndStore (url cacheKey : String) (cache : Cache α) (storeTime : Int)
    (transport : Transport α) : RequestOutcome α :=
  match transport with
  | Transport.success status data =>
    { result := Except.ok data
      cache := updateCache cache cacheKey { data := data, timestamp := storeTime }
      usedNetwork := true
      log := [LogEntry.freshRequest url, LogEntry.responseStatus status] }
  | Transport.failure e =>
    { result := Except.error e
      cache := cache
      usedNetwork := true
      log := [LogEntry.freshRequest url, LogEntry.requestFailed url] ++
             handleApiError e (some url) }

/-- `apiRequest` (first copy, lines 34–68): compute the cache key, serve
the cached data without network when the entry is fresh, otherwise fetch
and store. -/
def apiRequest (url : String) (params : Option Params) (cacheDuration : Int)
    (cache : Cache α) (now storeTime : Int) (transport : Transport α) :
    RequestOutcome α :=
  let cacheKey := getCacheKey url params
  let branch : RequestOutcome α :=
    match cache cacheKey with
    | some item =>
      if now - item.timestamp < cacheDuration then
        { result := Except.ok item.data
          cache := cache
          usedNetwork := false
          log := [LogEntry.usingCached url] }
      else fetchAndStore url cacheKey cache storeTime transport
    | none => fetchAndStore url cacheKey cache storeTime transport
  { branch with
    log := [LogEntry.requestTo url, LogEntry.requestParams params] ++ branch.log }

/-- The `try { ... } catch` block of the duplicate copy of `apiRequest`:
identical except that it logs nothing on success and calls the duplicate
error handler without the url. -/
def fetchAndStoreDup (cacheKey : String) (cache : Cache α) (storeTime : Int)
    (transport : Transport α) : RequestOutcome α :=
  match transport with
  | Transport.success _ data =>
    { result := Except.ok data
      cache := updateCache cache cacheKey { data := data, timestamp := storeTime }
      usedNetwork := true
      log := [] }
  | Transport.failure e =>
    { result := Except.error e
      cache := cache
      usedNetwork := true
      log := handleApiErrorDup e }

/-- `apiRequest` (second, duplicate copy, lines 180–206): same logic, no
logging on the request path. -/
def apiRequestDup (url : String) (params : Option Params) (cacheDuration : Int)
    (cache : Cache α) (now storeTime : Int) (transport : Transport α) :
    RequestOutcome α :=
  let cacheKey := getCacheKey url params
  match cache cacheKey with
  | some item =>
    if now - item.timestamp < cacheDuration then
      { result := Except.ok item.data
        cache := cache
        usedNetwork := false
        log := [] }
    else fetchAndStoreDup cacheKey cache storeTime transport
  | none => fetchAndStoreDup cacheKey cache storeTime transport

/-! ## Cache clearing -/

/-- `clearCache`: delete every key. -/
def clearCache (_cache : Cache α) : Cache α :=
  fun _ => none

/-- `clearCacheItem`: delete exactly the key `getCacheKey url params`. -/
def clearCacheItem (url : String) (params : Option Params) (cache : Cache α) :
    Cache α :=
  fun k => if k = getCacheKey url params then none else cache k

/-! ## Environment-variable accessor -/

/-- Result of the accessor: the returned string and the log trace. -/
structure EnvResult where
  value : String
  log : List LogEntry

/-- `getEnvVariable` (first copy, lines 135–147): look the key up in the
environment record; when absent or empty (`!value`), log the omission and
the available keys and return `''`; otherwise return the value. -/
def getEnvVariable (env : List (String × String)) (key : String) : EnvResult :=
  let value := env.lookup key
  if value = none ∨ value = some "" then
    { value := ""
      log := [LogEntry.envAccess key, LogEntry.envMissing key,
              LogEntry.envAvailable (env.map fun kv => kv.1)] }
  else
    { value := value.getD ""
      log := [LogEntry.envAccess key, LogEntry.envFound key (value.getD "").length] }

/-! ## Basic facts about the fetcher -/

/-- C1: when the cache holds an entry for the key derived from the url and
params whose age satisfies `now - storedAt < cacheDuration`, `apiRequest`
returns that entry's payload, performs no network call, and leaves the
cache mapping unchanged. -/
theorem apiRequest_freshHit_noNetwork {α : Type} (url : String)
    (params : Option Params) (cacheDuration : Int) (cache : Cache α)
    (now storeTime : Int) (transport : Transport α) (item : CacheItem α)
    (hentry : cache (getCacheKey url params) = some item)
    (hfresh : now - item.timestamp < cacheDuration) :
    (apiRequest url params cacheDuration cache now storeTime transport).result
        = Except.ok item.data ∧
    (apiRequest url params cacheDuration cache now storeTime transport).usedNetwork
        = false ∧
    (apiRequest url params cacheDuration cache now storeTime transport).cache
        = cache := by
  simp [apiRequest, hentry, hfresh]

/-- Witness for C1 at a concrete cache, clock and transport. -/
theorem apiRequest_freshHit_noNetwork_witness :
    (apiRequest "u" (some [("q", "a")]) 5
        (fun k => if k = getCacheKey "u" (some [("q", "a")]) then
                    some { data := (7 : Nat), timestamp := 0 }
                  else none)
        1 2 (Transport.success 200 9)).result = Except.ok 7 ∧
    (apiRequest "u" (some [("q", "a")]) 5
        (fun k => if k = getCacheKey "u" (some [("q", "a")]) then
                    some { data := (7 : Nat), timestamp := 0 }
                  else none)
        1 2 (Transport.success 200 9)).usedNetwork = false := by
  have h := apiRequest_freshHit_noNetwork "u" (some [("q", "a")]) 5
    (fun k => if k = getCacheKey "u" (some [("q", "a")]) then
                some { data := (7 : Nat), timestamp := 0 }
              else none)
    1 2 (Transport.success 200 9) { data := (7 : Nat), timestamp := 0 }
    (by simp) (by decide)
  exact ⟨h.1, h.2.1⟩

/-- C2: when the network path is taken (no fresh entry) and the transport
fails, the failure is propagated unchanged and the cache is identical
before and after at every key. -/
theorem apiRequest_failure_preservesCache {α : Type} (url : String)
    (params : Option Params) (cacheDuration : Int) (cache : Cache α)
    (now storeTime : Int) (e : AxiosError)
    (hmiss : isCacheValid cache (getCacheKey url params) cacheDuration now = false) :
    (apiRequest url params cacheDuration cache now storeTime
        (Transport.failure e)).result = Except.error e ∧
    ∀ k, (apiRequest url params cacheDuration cache now storeTime
        (Transport.failure e)).cache k = cache k := by
  unfold isCacheValid at hmiss
  cases hc : cache (getCacheKey url params) with
  | none => simp [apiRequest, fetchAndStore, hc]
  | some item =>
    rw [hc] at hmiss
    simp only [decide_eq_false_iff_not] at hmiss
    simp [apiRequest, fetchAndStore, hc, hmiss]

/-- Witness for C2 at a concrete stale cache and failing transport. -/
theorem apiRequest_failure_preservesCache_witness :
    (apiRequest "u" none 5 (fun _ => some { data := (3 : Nat), timestamp := 0 })
        10 11 (Transport.failure
          { response := none, request := some "req", message := "m",
            configUrl := none })).result
      = Except.error
          { response := none, request := some "req", message := "m",
            configUrl := none } ∧
    (apiRequest "u" none 5 (fun _ => some { data := (3 : Nat), timestamp := 0 })
        10 11 (Transport.failure
          { response := none, request := some "req", message := "m",
            configUrl := none })).cache "u"
      = some { data := (3 : Nat), timestamp := 0 } := by
  have h := apiRequest_failure_preservesCache "u" none 5
    (fun _ => some { data := (3 : Nat), timestamp := 0 }) 10 11
    { response := none, request := some "req", message := "m", configUrl := none }
    (by decide)
  exact ⟨h.1, h.2 "u"⟩

/-- C3: when the cache has no fresh entry for the derived key and the
transport succeeds with body `b`, `apiRequest` stores
`{ data := b, timestamp := storeTime }` under that key — overwriting
whatever was there — returns `b`, and touches no other key. -/
theorem apiRequest_success_stores {α : Type} (url : String)
    (params : Option Params) (cacheDuration : Int) (cache : Cache α)
    (now storeTime : Int) (status : Int) (b : α)
    (hmiss : isCacheValid cache (getCacheKey url params) cacheDuration now = false) :
    (apiRequest url params cacheDuration cache now storeTime
        (Transport.success status b)).result = Except.ok b ∧
    (apiRequest url params cacheDuration cache now storeTime
        (Transport.success status b)).cache (getCacheKey url params)
      = some { data := b, timestamp := storeTime } ∧
    ∀ k, k ≠ getCacheKey url params →
      (apiRequest url params cacheDuration cache now storeTime
          (Transport.success status b)).cache k = cache k := by
  unfold isCacheValid at hmiss
  cases hc : cache (getCacheKey url params) with
  | none =>
    simp [apiRequest, fetchAndStore, updateCache, hc]
    exact fun k h1 h2 => absurd h2 h1
  | some item =>
    rw [hc] at hmiss
    simp only [decide_eq_false_iff_not] at hmiss
    simp [apiRequest, fetchAndStore, updateCache, hc, hmiss]
    exact fun k h1 h2 => absurd h2 h1

/-- Witness for C3: a stale entry is overwritten with the fresh body. -/
theorem apiRequest_success_stores_witness :
    (apiRequest "u" none 5 (fun _ => some { data := (3 : Nat), timestamp := 0 })
        10 11 (Transport.success 200 9)).result = Except.ok 9 ∧
    (apiRequest "u" none 5 (fun _ => some { data := (3 : Nat), timestamp := 0 })
        10 11 (Transport.success 200 9)).cache (getCacheKey "u" none)
      = some { data := 9, timestamp := 11 } ∧
    (apiRequest "u" none 5 (fun _ => some { data := (3 : Nat), timestamp := 0 })
        10 11 (Transport.success 200 9)).cache "other"
      = some { data := 3, timestamp := 0 } := by
  have h := apiRequest_success_stores "u" none 5
    (fun _ => some { data := (3 : Nat), timestamp := 0 }) 10 11 200 9 (by decide)
  exact ⟨h.1, h.2.1, h.2.2 "other" (by decide)⟩

/-- C6 counterexample: for the same url, absent params and the empty
parameter mapping derive different cache keys (`"u"` versus `"u{}"`). -/
theorem getCacheKey_absent_vs_empty_cex :
    getCacheKey "https://api.example/x" none
      ≠ getCacheKey "https://api.example/x" (some []) := by
  decide

/-- C6 (amended): absent params contribute the empty string, so the key is
the bare url; the empty parameter mapping serializes to `"{}"`, so its key
is the url followed by `"{}"`; the two keys always differ. -/
theorem getCacheKey_absent_bareUrl (url : String) :
    getCacheKey url none = url ∧
    getCacheKey url (some []) = url ++ "{}" ∧
    getCacheKey url none ≠ getCacheKey url (some []) := by
  refine ⟨by simp [getCacheKey], by rfl, ?_⟩
  intro h
  rw [show getCacheKey url none = url by simp [getCacheKey],
      show getCacheKey url (some []) = url ++ "{}" from rfl] at h
  have hlen := congrArg String.length h
  rw [String.length_append] at hlen
  have h2 : ("{}" : String).length = 2 := rfl
  omega

/-- C7: `clearCacheItem url params` empties exactly the key
`getCacheKey url params`, leaves every other key untouched, and is the
identity when that key was absent. -/
theorem clearCacheItem_frame {α : Type} (url : String) (params : Option Params)
    (cache : Cache α) :
    clearCacheItem url params cache (getCacheKey url params) = none ∧
    (∀ k, k ≠ getCacheKey url params →
      clearCacheItem url params cache k = cache k) ∧
    (cache (getCacheKey url params) = none →
      ∀ k, clearCacheItem url params cache k = cache k) := by
  refine ⟨by simp [clearCacheItem], fun k hk => by simp [clearCacheItem, hk], ?_⟩
  intro habs k
  unfold clearCacheItem
  by_cases hk : k = getCacheKey url params
  · subst hk
    simp [habs]
  · simp [hk]

/-- Witness for C7 on a concrete two-entry cache. -/
theorem clearCacheItem_frame_witness :
    clearCacheItem "u" none
      (fun k => if k = "u" then some { data := (1 : Nat), timestamp := 0 }
                else if k = "v" then some { data := 2, timestamp := 0 }
                else none)
      (getCacheKey "u" none) = none ∧
    clearCacheItem "u" none
      (fun k => if k = "u" then some { data := (1 : Nat), timestamp := 0 }
                else if k = "v" then some { data := 2, timestamp := 0 }
                else none)
      "v" = some { data := 2, timestamp := 0 } := by
  have h := clearCacheItem_frame "u" none
    (fun k => if k = "u" then some { data := (1 : Nat), timestamp := 0 }
              else if k = "v" then some { data := 2, timestamp := 0 }
              else none)
  exact ⟨h.1, by rw [h.2.1 "v" (by decide)]; simp⟩

/-- C8: the two duplicate copies of the fetcher are behaviorally
equivalent — for every input, cache state, clock values and transport
outcome they produce the same result, the same cache state and the same
network usage; only their log traces differ. -/
theorem apiRequest_dup_equiv {α : Type} (url : String) (params : Option Params)
    (cacheDuration : Int) (cache : Cache α) (now storeTime : Int)
    (transport : Transport α) :
    (apiRequest url params cacheDuration cache now storeTime transport).result
      = (apiRequestDup url params cacheDuration cache now storeTime transport).result ∧
    (apiRequest url params cacheDuration cache now storeTime transport).cache
      = (apiRequestDup url params cacheDuration cache now storeTime transport).cache ∧
    (apiRequest url params cacheDuration cache now storeTime transport).usedNetwork
      = (apiRequestDup url params cacheDuration cache now storeTime transport).usedNetwork := by
  cases hc : cache (getCacheKey url params) with
  | none =>
    cases transport <;>
      simp [apiRequest, apiRequestDup, fetchAndStore, fetchAndStoreDup, hc]
  | some item =>
    by_cases hfresh : now - item.timestamp < cacheDuration
    · simp [apiRequest, apiRequestDup, hc, hfresh]
    · cases transport <;>
        simp [apiRequest, apiRequestDup, fetchAndStore, fetchAndStoreDup, hc, hfresh]

/-- C9: the environment accessor returns the configured value when present
and non-empty; when the value is absent or empty it returns the
empty-string indicator and logs the omission.  It is a total function — it
never raises and never substitutes a default credential. -/
theorem getEnvVariable_spec (env : List (String × String)) (key : String) :
    (∀ v, env.lookup key = some v → v ≠ "" →
      (getEnvVariable env key).value = v) ∧
    (env.lookup key = none →
      (getEnvVariable env key).value = "" ∧
      LogEntry.envMissing key ∈ (getEnvVariable env key).log) ∧
    (env.lookup key = some "" →
      (getEnvVariable env key).value = "" ∧
      LogEntry.envMissing key ∈ (getEnvVariable env key).log) := by
  refine ⟨?_, ?_, ?_⟩
  · intro v hv hne
    simp [getEnvVariable, hv, hne]
  · intro habs
    simp [getEnvVariable, habs]
  · intro hempty
    simp [getEnvVariable, hempty]

/-- Witness for C9: a present non-empty value is returned, an absent one
yields the empty indicator with a logged omission. -/
theorem getEnvVariable_spec_witness :
    (getEnvVariable [("KEY", "secret")] "KEY").value = "secret" ∧
    (getEnvVariable [("KEY", "secret")] "MISSING").value = "" ∧
    LogEntry.envMissing "MISSING" ∈ (getEnvVariable [("KEY", "secret")] "MISSING").log := by
  have h1 := (getEnvVariable_spec [("KEY", "secret")] "KEY").1 "secret"
    (by decide) (by decide)
  have h2 := (getEnvVariable_spec [("KEY", "secret")] "MISSING").2.1 (by decide)
  exact ⟨h1, h2.1, h2.2⟩

/-- C10: with a non-positive freshness window and a cache entry stored no
later than the current clock (a monotone clock: age is non-negative), the
strict freshness comparison fails, so `apiRequest` never serves from the
cache and always takes the network path. -/
theorem apiRequest_nonpositive_window_networks {α : Type} (url : String)
    (params : Option Params) (cacheDuration : Int) (cache : Cache α)
    (now storeTime : Int) (transport : Transport α)
    (hdur : cacheDuration ≤ 0)
    (hpast : ∀ item, cache (getCacheKey url params) = some item →
      item.timestamp ≤ now) :
    isCacheValid cache (getCacheKey url params) cacheDuration now = false ∧
    (apiRequest url params cacheDuration cache now storeTime transport).usedNetwork
      = true := by
  cases hc : cache (getCacheKey url params) with
  | none =>
    cases transport <;>
      simp [isCacheValid, apiRequest, fetchAndStore, hc]
  | some item =>
    have hts := hpast item hc
    have hstale : ¬ (now - item.timestamp < cacheDuration) := by omega
    cases transport <;>
      simp [isCacheValid, apiRequest, fetchAndStore, hc, hstale]

/-- Witness for C10: a zero window ignores an entry stored at the current
instant. -/
theorem apiRequest_nonpositive_window_networks_witness :
    isCacheValid (fun _ => some { data := (3 : Nat), timestamp := 5 }) "u" 0 5
      = false ∧
    (apiRequest "u" none 0 (fun _ => some { data := (3 : Nat), timestamp := 5 })
        5 6 (Transport.success 200 9)).usedNetwork = true := by
  have h := apiRequest_nonpositive_window_networks "u" none 0
    (fun _ => some { data := (3 : Nat), timestamp := 5 }) 5 6
    (Transport.success 200 9) (by decide)
    (fun item hi => by
      simp at hi
      subst hi
      decide)
  exact ⟨h.1, h.2⟩

/-- C5: error normalization classifies every transport failure into
exactly one of three disjoint, exhaustive kinds, determined by the branch
structure of `handleApiError`: a server error response (recording status,
status text and body, annotating status 429 as rate-limited), request sent
but no response received, or request-setup failure; and the failing call
still propagates the very same error — classification never converts it
into a success. -/
theorem classifyError_taxonomy (e : AxiosError) :
    (∀ r, e.response = some r →
      classifyError e
        = ErrorKind.responseError r.status r.statusText r.data
            (decide (r.status = 429))) ∧
    (e.response = none → ∀ req, e.request = some req →
      classifyError e = ErrorKind.noResponseReceived) ∧
    (e.response = none → e.request = none →
      classifyError e = ErrorKind.setupFailure e.message) ∧
    (∀ {α : Type} (url : String) (params : Option Params) (cacheDuration : Int)
        (cache : Cache α) (now storeTime : Int),
      isCacheValid cache (getCacheKey url params) cacheDuration now = false →
      (apiRequest url params cacheDuration cache now storeTime
          (Transport.failure e)).result = Except.error e) := by
  refine ⟨?_, ?_, ?_, ?_⟩
  · intro r hr
    simp [classifyError, hr]
  · intro hr req hq
    simp [classifyError, hr, hq]
  · intro hr hq
    simp [classifyError, hr, hq]
  · intro α url params cacheDuration cache now storeTime hmiss
    unfold isCacheValid at hmiss
    cases hc : cache (getCacheKey url params) with
    | none => simp [apiRequest, fetchAndStore, hc]
    | some item =>
      rw [hc] at hmiss
      simp only [decide_eq_false_iff_not] at hmiss
      simp [apiRequest, fetchAndStore, hc, hmiss]

/-- Witness for C5: one concrete error of each kind, and a failing call
whose propagated error is untouched. -/
theorem classifyError_taxonomy_witness :
    classifyError
        { response := some { status := 429, statusText := "T", data := "b" },
          request := none, message := "m", configUrl := none }
      = ErrorKind.responseError 429 "T" "b" true ∧
    classifyError
        { response := none, request := some "r", message := "m",
          configUrl := none }
      = ErrorKind.noResponseReceived ∧
    classifyError
        { response := none, request := none, message := "m", configUrl := none }
      = ErrorKind.setupFailure "m" ∧
    (apiRequest "u" none 5 (fun _ => (none : Option (CacheItem Nat))) 0 1
        (Transport.failure
          { response := none, request := none, message := "m",
            configUrl := none })).result
      = Except.error
          { response := none, request := none, message := "m",
            configUrl := none } := by
  refine ⟨?_, ?_, ?_, ?_⟩
  · have h := (classifyError_taxonomy
      { response := some { status := 429, statusText := "T", data := "b" },
        request := none, message := "m", configUrl := none }).1
      { status := 429, statusText := "T", data := "b" } rfl
    simpa using h
  · exact (classifyError_taxonomy
      { response := none, request := some "r", message := "m",
        configUrl := none }).2.1 rfl "r" rfl
  · exact (classifyError_taxonomy
      { response := none, request := none, message := "m",
        configUrl := none }).2.2.1 rfl rfl
  · exact (classifyError_taxonomy
      { response := none, request := none, message := "m",
        configUrl := none }).2.2.2 "u" none 5
      (fun _ => (none : Option (CacheItem Nat))) 0 1 (by decide)

/-- C4 counterexample: two parameter lists that are semantically identical
(a permutation of the same key-value pairs, hence the same mapping) derive
different cache keys, because `JSON.stringify` serializes in insertion
order. -/
theorem getCacheKey_perm_cex :
    List.Perm [(("a" : String), ("1" : String)), ("b", "2")]
      [("b", "2"), ("a", "1")] ∧
    getCacheKey "u" (some [("a", "1"), ("b", "2")])
      ≠ getCacheKey "u" (some [("b", "2"), ("a", "1")]) := by
  constructor
  · exact List.Perm.swap ("b", "2") ("a", "1") []
  · decide

/-! ## Injectivity of the cache-key serialization

The serialization emitted by `escapeChar` is a prefix-unambiguous code:
`decodeEsc` reads back exactly the character that was escaped.  This makes
`jsonStringify` injective on ordered parameter lists, and `getCacheKey`
injective in its parameter argument for a fixed url. -/

theorem hexVal_hexDigitChar : ∀ n : Nat, n < 16 → hexVal (hexDigitChar n) = n := by
  decide

theorem char_toNat_inj {c1 c2 : Char} (h : c1.toNat = c2.toNat) : c1 = c2 :=
  Char.eq_of_val_eq (UInt32.ext h)

theorem decodeEsc_escapeChar (c : Char) (x : List Char) :
    decodeEsc (escapeChar c ++ x) = some (c, x) := by
  unfold escapeChar
  split_ifs with h1 h2 h3 h4 h5 h6 h7 h8
  · subst h1; rfl
  · subst h2; rfl
  · subst h3; rfl
  · subst h4; rfl
  · subst h5; rfl
  · subst h6; rfl
  · subst h7; rfl
  · show decodeEsc ('\\' :: 'u' :: '0' :: '0' ::
        hexDigitChar (c.toNat / 16) :: hexDigitChar (c.toNat % 16) :: x)
      = some (c, x)
    have hd : c.toNat / 16 < 16 := by omega
    have hm : c.toNat % 16 < 16 := by omega
    simp [decodeEsc, hexVal_hexDigitChar _ hd, hexVal_hexDigitChar _ hm]
    have ht : 16 * (c.toNat / 16) + c.toNat % 16 = c.toNat := by omega
    rw [ht, Char.ofNat_toNat]
  · show decodeEsc (c :: x) = some (c, x)
    rw [decodeEsc.eq_def]
    split <;> simp_all

theorem escapeChar_code (c1 c2 : Char) (x y : List Char)
    (h : escapeChar c1 ++ x = escapeChar c2 ++ y) : c1 = c2 ∧ x = y := by
  have h1 := decodeEsc_escapeChar c1 x
  have h2 := decodeEsc_escapeChar c2 y
  rw [h, h2] at h1
  simp at h1
  exact ⟨h1.1.symm, h1.2.symm⟩

theorem decodeEsc_quote (r : List Char) : decodeEsc ('"' :: r) = some ('"', r) := rfl

theorem escapeChar_append_ne_quote (c : Char) (x r : List Char) :
    escapeChar c ++ x ≠ '"' :: r := by
  intro h
  have hd := decodeEsc_escapeChar c x
  rw [h, decodeEsc_quote] at hd
  simp at hd
  obtain ⟨hc, hx⟩ := hd
  subst hc
  subst hx
  simp [escapeChar] at h

theorem escapeBody_det : ∀ (s1 s2 r1 r2 : List Char),
    escapeBody s1 ++ '"' :: r1 = escapeBody s2 ++ '"' :: r2 → s1 = s2 ∧ r1 = r2 := by
  intro s1
  induction s1 with
  | nil =>
    intro s2 r1 r2 h
    cases s2 with
    | nil => simpa [escapeBody] using h
    | cons c t =>
      exfalso
      rw [show escapeBody (c :: t) = escapeChar c ++ escapeBody t from rfl,
          List.append_assoc] at h
      exact escapeChar_append_ne_quote c _ _ h.symm
  | cons c t ih =>
    intro s2 r1 r2 h
    cases s2 with
    | nil =>
      exfalso
      rw [show escapeBody (c :: t) = escapeChar c ++ escapeBody t from rfl,
          List.append_assoc] at h
      exact escapeChar_append_ne_quote c _ _ h
    | cons c2 t2 =>
      rw [show escapeBody (c :: t) = escapeChar c ++ escapeBody t from rfl,
          show escapeBody (c2 :: t2) = escapeChar c2 ++ escapeBody t2 from rfl,
          List.append_assoc, List.append_assoc] at h
      obtain ⟨hc, hrest⟩ := escapeChar_code c c2 _ _ h
      obtain ⟨ht, hr⟩ := ih t2 r1 r2 hrest
      exact ⟨by rw [hc, ht], hr⟩

theorem quoteChars_det (s1 s2 r1 r2 : List Char)
    (h : quoteChars s1 ++ r1 = quoteChars s2 ++ r2) : s1 = s2 ∧ r1 = r2 := by
  unfold quoteChars at h
  simp only [List.cons_append, List.append_assoc, List.singleton_append,
    List.cons.injEq, true_and] at h
  exact escapeBody_det _ _ _ _ h

theorem entryChars_det (k1 v1 k2 v2 : List Char) (r1 r2 : List Char)
    (h : entryChars k1 v1 ++ r1 = entryChars k2 v2 ++ r2) :
    k1 = k2 ∧ v1 = v2 ∧ r1 = r2 := by
  unfold entryChars at h
  rw [List.append_assoc, List.append_assoc] at h
  obtain ⟨hk, h2⟩ := quoteChars_det _ _ _ _ h
  simp only [List.cons_append, List.cons.injEq, true_and] at h2
  obtain ⟨hv, hr⟩ := quoteChars_det _ _ _ _ h2
  exact ⟨hk, hv, hr⟩

theorem entryChars_head (k v : List Char) (x : List Char) :
    entryChars k v ++ x
      = '"' :: (escapeBody k ++ ['"'] ++ (':' :: quoteChars v) ++ x) := by
  simp [entryChars, quoteChars]

theorem entriesChars_det : ∀ (l1 l2 : List (List Char × List Char)) (r1 r2 : List Char),
    entriesChars l1 ++ '}' :: r1 = entriesChars l2 ++ '}' :: r2 →
    l1 = l2 ∧ r1 = r2 := by
  intro l1
  induction l1 with
  | nil =>
    intro l2 r1 r2 h
    cases l2 with
    | nil => simpa [entriesChars] using h
    | cons kv2 t2 =>
      exfalso
      cases t2 with
      | nil =>
        rw [show entriesChars [kv2] = entryChars kv2.1 kv2.2 from rfl] at h
        rw [entryChars_head] at h
        simp [entriesChars] at h
      | cons kv2b t2b =>
        rw [show entriesChars (kv2 :: kv2b :: t2b)
            = entryChars kv2.1 kv2.2 ++ ',' :: entriesChars (kv2b :: t2b) from rfl,
            List.append_assoc] at h
        rw [entryChars_head] at h
        simp [entriesChars] at h
  | cons kv1 t1 ih =>
    intro l2 r1 r2 h
    cases l2 with
    | nil =>
      exfalso
      cases t1 with
      | nil =>
        rw [show entriesChars [kv1] = entryChars kv1.1 kv1.2 from rfl] at h
        rw [entryChars_head] at h
        simp [entriesChars] at h
      | cons kv1b t1b =>
        rw [show entriesChars (kv1 :: kv1b :: t1b)
            = entryChars kv1.1 kv1.2 ++ ',' :: entriesChars (kv1b :: t1b) from rfl,
            List.append_assoc] at h
        rw [entryChars_head] at h
        simp [entriesChars] at h
    | cons kv2 t2 =>
      cases t1 with
      | nil =>
        cases t2 with
        | nil =>
          rw [show entriesChars [kv1] = entryChars kv1.1 kv1.2 from rfl,
              show entriesChars [kv2] = entryChars kv2.1 kv2.2 from rfl] at h
          obtain ⟨hk, hv, hr⟩ := entryChars_det _ _ _ _ _ _ h
          rw [List.cons.injEq] at hr
          refine ⟨?_, hr.2⟩
          rw [show kv1 = (kv1.1, kv1.2) from rfl, show kv2 = (kv2.1, kv2.2) from rfl,
              hk, hv]
        | cons kv2b t2b =>
          exfalso
          rw [show entriesChars [kv1] = entryChars kv1.1 kv1.2 from rfl,
              show entriesChars (kv2 :: kv2b :: t2b)
              = entryChars kv2.1 kv2.2 ++ ',' :: entriesChars (kv2b :: t2b) from rfl,
              List.append_assoc] at h
          obtain ⟨_, _, hr⟩ := entryChars_det _ _ _ _ _ _ h
          simp at hr
      | cons kv1b t1b =>
        cases t2 with
        | nil =>
          exfalso
          rw [show entriesChars (kv1 :: kv1b :: t1b)
              = entryChars kv1.1 kv1.2 ++ ',' :: entriesChars (kv1b :: t1b) from rfl,
              show entriesChars [kv2] = entryChars kv2.1 kv2.2 from rfl,
              List.append_assoc] at h
          obtain ⟨_, _, hr⟩ := entryChars_det _ _ _ _ _ _ h
          simp at hr
        | cons kv2b t2b =>
          rw [show entriesChars (kv1 :: kv1b :: t1b)
              = entryChars kv1.1 kv1.2 ++ ',' :: entriesChars (kv1b :: t1b) from rfl,
              show entriesChars (kv2 :: kv2b :: t2b)
              = entryChars kv2.1 kv2.2 ++ ',' :: entriesChars (kv2b :: t2b) from rfl,
              List.append_assoc, List.append_assoc] at h
          obtain ⟨hk, hv, hr⟩ := entryChars_det _ _ _ _ _ _ h
          simp only [List.cons_append, List.cons.injEq, true_and] at hr
          obtain ⟨hteq, hreq⟩ := ih (kv2b :: t2b) r1 r2 hr
          refine ⟨?_, hreq⟩
          rw [show kv1 = (kv1.1, kv1.2) from rfl, show kv2 = (kv2.1, kv2.2) from rfl,
              hk, hv, hteq]

theorem stringifyChars_inj (l1 l2 : List (List Char × List Char))
    (h : stringifyChars l1 = stringifyChars l2) : l1 = l2 := by
  unfold stringifyChars at h
  rw [List.cons.injEq] at h
  exact (entriesChars_det l1 l2 [] [] h.2).1

theorem toListPair_inj : Function.Injective
    (fun kv : String × String => (kv.1.toList, kv.2.toList)) := by
  intro a b hab
  simp only [Prod.mk.injEq] at hab
  cases a
  cases b
  simp only [Prod.mk.injEq]
  exact ⟨String.ext hab.1, String.ext hab.2⟩

theorem jsonStringify_inj (p1 p2 : Params)
    (h : jsonStringify p1 = jsonStringify p2) : p1 = p2 := by
  unfold jsonStringify at h
  have hl : stringifyChars (p1.map fun kv => (kv.1.toList, kv.2.toList))
      = stringifyChars (p2.map fun kv => (kv.1.toList, kv.2.toList)) :=
    congrArg String.toList h
  have h2 := stringifyChars_inj _ _ hl
  exact List.map_injective_iff.mpr toListPair_inj h2

/-- C4 (amended): for a fixed url, cache-key derivation is deterministic
and injective on the ordered parameter representation — two calls derive
the same key exactly when their (optional) ordered parameter lists are
equal, so any differing parameter value yields a different key.  (As the
counterexample shows, parameter mappings that are semantically identical
but serialized in a different insertion order count as different
representations and yield different keys.) -/
theorem getCacheKey_inj (url : String) (p1 p2 : Option Params) :
    getCacheKey url p1 = getCacheKey url p2 ↔ p1 = p2 := by
  constructor
  · intro h
    unfold getCacheKey at h
    have hl : url.toList ++ (match p1 with
          | some p => jsonStringify p
          | none => "").toList
        = url.toList ++ (match p2 with
          | some p => jsonStringify p
          | none => "").toList := congrArg String.toList h
    have hc := List.append_cancel_left hl
    cases p1 with
    | none =>
      cases p2 with
      | none => rfl
      | some q =>
        exfalso
        simp only [jsonStringify, stringifyChars] at hc
        exact List.noConfusion hc
    | some p =>
      cases p2 with
      | none =>
        exfalso
        simp only [jsonStringify, stringifyChars] at hc
        exact List.noConfusion hc
      | some q =>
        rw [Option.some.injEq]
        exact jsonStringify_inj p q (String.ext hc)
  · intro h
    rw [h]

/-- Witness for C4 (amended): two requests differing only in one parameter
value get different cache keys. -/
theorem getCacheKey_inj_witness :
    getCacheKey "u" (some [("q", "a")]) ≠ getCacheKey "u" (some [("q", "b")]) := by
  intro h
  have h2 := (getCacheKey_inj "u" (some [("q", "a")]) (some [("q", "b")])).mp h
  exact absurd h2 (by decide)

end ApiDashboard
